import Mathlib

/-!
# Verification of `x-deleter` (`src/index.ts`)

Shallow embedding of the deletion-scheduler script in `src/index.ts`.
Network calls are modelled by oracles (one outcome per call, indexed by the
call counter), time by an ambient environment (`Date.now()` and date-string
parsing), and the observable behaviour of a run by a trace of events
(API calls, sleeps, log lines).  JavaScript numbers are modelled as a
rational or NaN.
-/

namespace XDeleter

/-- A JavaScript number value: NaN or a finite rational. -/
inductive JSNum where
  | nan : JSNum
  | fin : ℚ → JSNum
deriving DecidableEq

namespace JSNum

/-- JS subtraction (NaN-propagating). -/
def sub : JSNum → JSNum → JSNum
  | fin a, fin b => fin (a - b)
  | _, _ => nan

/-- JS addition (NaN-propagating). -/
def add : JSNum → JSNum → JSNum
  | fin a, fin b => fin (a + b)
  | _, _ => nan

/-- JS multiplication (NaN-propagating). -/
def mul : JSNum → JSNum → JSNum
  | fin a, fin b => fin (a * b)
  | _, _ => nan

/-- JS division by a nonzero constant (NaN-propagating). -/
def divQ : JSNum → ℚ → JSNum
  | fin a, q => fin (a / q)
  | nan, _ => nan

/-- JS comparison `x <= c`: false whenever `x` is NaN. -/
def leb : JSNum → ℚ → Bool
  | fin a, c => decide (a ≤ c)
  | nan, _ => false

/-- `Math.min(x, c)`: NaN when `x` is NaN. -/
def minQ : JSNum → ℚ → JSNum
  | fin a, c => fin (min a c)
  | nan, _ => nan

end JSNum

/-- `const DELETE_INTERVAL = 5000`. -/
def DELETE_INTERVAL : ℚ := 5000

/-- `const MIN_API_LIMIT_WAIT = 900000` (15 minutes). -/
def MIN_API_LIMIT_WAIT : ℚ := 900000

/-- `const MAX_API_LIMIT_WAIT = 3600000` (1 hour). -/
def MAX_API_LIMIT_WAIT : ℚ := 3600000

/-- The `resetTime` argument of `calculateWaitTime`:
`string | number | undefined | null`. -/
inductive ResetTime where
  | absent : ResetTime
  | num : ℚ → ResetTime
  | str : String → ResetTime
deriving DecidableEq

/-- JavaScript falsiness of the reset marker (`!resetTime`):
`undefined`/`null`, the number `0` and the empty string are falsy. -/
def ResetTime.falsy : ResetTime → Bool
  | .absent => true
  | .num n => decide (n = 0)
  | .str s => decide (s = "")

/-- Ambient JavaScript environment: `Date.now()` in milliseconds and
date-string parsing (`new Date(s).getTime()`, milliseconds, NaN when the
string is not a parseable date — in particular `new Date("")` is NaN). -/
structure JsEnv where
  nowMs : ℚ
  parseMs : String → JSNum

/-- The `resetTimestamp` local of `calculateWaitTime` (epoch seconds):
a string is parsed as a date and divided by 1000, a number is used directly,
anything else falls back to `Date.now() / 1000`. -/
def resetTimestampSec (env : JsEnv) : ResetTime → JSNum
  | .str s => (env.parseMs s).divQ 1000
  | .num n => .fin n
  | .absent => .fin (env.nowMs / 1000)

/-- The `now` local of `calculateWaitTime`: `Math.floor(Date.now() / 1000)`. -/
def nowSec (env : JsEnv) : ℤ := ⌊env.nowMs / 1000⌋

/-- The `waitSeconds` local of `calculateWaitTime`:
`resetTimestamp - now`. -/
def waitSecondsOf (env : JsEnv) (rt : ResetTime) : JSNum :=
  (resetTimestampSec env rt).sub (.fin ((nowSec env : ℤ) : ℚ))

/-- `calculateWaitTime` of `src/index.ts`: falsy marker or non-positive wait
gives the 15-minute floor, otherwise `Math.min(waitSeconds * 1000 + 60000,
MAX_API_LIMIT_WAIT)`. -/
def calculateWaitTime (env : JsEnv) (resetTime : ResetTime) : JSNum :=
  if resetTime.falsy then .fin MIN_API_LIMIT_WAIT
  else
    let ws := waitSecondsOf env resetTime
    if ws.leb 0 then .fin MIN_API_LIMIT_WAIT
    else ((ws.mul (.fin 1000)).add (.fin 60000)).minQ MAX_API_LIMIT_WAIT

/-- A fetched tweet (`TweetV2`): `id` plus the optional `created_at` field. -/
structure Tweet where
  id : String
  created_at : Option String
deriving DecidableEq

/-- An error thrown by the API client, with the fields the script reads:
whether it is an `ApiResponseError`, its `rateLimitError` flag, its HTTP-style
`code`, and `error.rateLimit?.reset` (epoch seconds, possibly undefined). -/
structure ApiError where
  isApiResponseError : Bool
  rateLimitError : Bool
  code : Option ℕ
  rateLimitReset : Option ℚ
deriving DecidableEq

/-- `isRateLimitError` of `src/index.ts`:
`error instanceof ApiResponseError && error.rateLimitError`. -/
def isRateLimitError (e : ApiError) : Bool :=
  e.isApiResponseError && e.rateLimitError

/-- `error.rateLimit?.reset` as a `calculateWaitTime` argument. -/
def resetOf : Option ℚ → ResetTime
  | Option.none => .absent
  | some n => .num n

/-- The wait computed from a rate-limit error's own metadata:
`calculateWaitTime(error.rateLimit?.reset)`. -/
def errWait (env : JsEnv) (e : ApiError) : JSNum :=
  calculateWaitTime env (resetOf e.rateLimitReset)

/-- `tweet.created_at` as a `calculateWaitTime` argument. -/
def createdReset (t : Tweet) : ResetTime :=
  match t.created_at with
  | some s => .str s
  | Option.none => .absent

/-- Observable events of a run: API calls, sleeps and the log lines the
claims refer to. -/
inductive Event where
  | meCall : Event
  | timelineCall : String → Event
  | userByUsernameCall : Event
  | checkTimelineCall : String → Event
  | deleteCall : String → Event
  | sleep : JSNum → Event
  | logError : Event
  | logRateLimit : Event
deriving DecidableEq

/-- Outcome of one API call: a value, or a thrown error. -/
inductive ApiResult (α : Type) where
  | ok : α → ApiResult α
  | err : ApiError → ApiResult α
deriving DecidableEq

/-- JavaScript truthiness of `USER_ID : string | null`
(`if (USER_ID) return USER_ID`). -/
def strTruthy : Option String → Bool
  | some s => !s.isEmpty
  | Option.none => false

/-- `getUserId` of `src/index.ts`, driven by the oracle `me` (outcome of the
`i`-th `client.v2.me()` call) and bounded by `fuel` (the source recursion is
unbounded; `Option.none` means the bound was reached).  Returns the returned
or thrown value, the event trace, and the next `me` call index.  Note the
source checks the `USER_ID` cache but never assigns it, so the cache argument
is threaded through unchanged. -/
def getUserIdF (env : JsEnv) (me : ℕ → ApiResult String) (userId : Option String) :
    ℕ → ℕ → Option (ApiResult String × List Event × ℕ)
  | _, 0 => Option.none
  | i, fuel+1 =>
    if strTruthy userId then some (.ok (userId.getD ""), [], i)
    else
      match me i with
      | .ok uid => some (.ok uid, [.meCall], i + 1)
      | .err e =>
        if isRateLimitError e then
          match getUserIdF env me userId (i + 1) fuel with
          | some (r, tr, j) => some (r, .meCall :: .sleep (errWait env e) :: tr, j)
          | Option.none => Option.none
        else some (.err e, [.meCall], i + 1)

/-- `getAllTweetsAtOnce` of `src/index.ts`: resolve the user id, then fetch
the timeline (oracle `tl`, outcome of the `iTl`-th `userTimeline` call); a
rate-limit error caught from either call sleeps `calculateWaitTime` of the
error's reset metadata and recurses, any other error is rethrown.  Returns
the result, the trace, and the next `me` and `tl` call indices. -/
def getAllTweetsF (env : JsEnv) (me : ℕ → ApiResult String)
    (tl : ℕ → ApiResult (List Tweet)) (userId : Option String) :
    ℕ → ℕ → ℕ → Option (ApiResult (List Tweet) × List Event × ℕ × ℕ)
  | _, _, 0 => Option.none
  | iMe, iTl, fuel+1 =>
    match getUserIdF env me userId iMe (fuel + 1) with
    | Option.none => Option.none
    | some (.err e, tr, iMe2) =>
      if isRateLimitError e then
        match getAllTweetsF env me tl userId iMe2 iTl fuel with
        | Option.none => Option.none
        | some (r, tr2, a, b) => some (r, tr ++ .sleep (errWait env e) :: tr2, a, b)
      else some (.err e, tr, iMe2, iTl)
    | some (.ok uid, tr, iMe2) =>
      match tl iTl with
      | .ok ts => some (.ok ts, tr ++ [.timelineCall uid], iMe2, iTl + 1)
      | .err e =>
        if isRateLimitError e then
          match getAllTweetsF env me tl userId iMe2 (iTl + 1) fuel with
          | Option.none => Option.none
          | some (r, tr2, a, b) =>
            some (r, tr ++ .timelineCall uid :: .sleep (errWait env e) :: tr2, a, b)
        else some (.err e, tr ++ [.timelineCall uid], iMe2, iTl + 1)

/-- Outcome of one `client.v2.deleteTweet` call. -/
inductive DeleteOutcome where
  | ok : DeleteOutcome
  | err : ApiError → DeleteOutcome
deriving DecidableEq

/-- The `for (const tweet of tweetsToDelete)` loop of `deleteTweets`, driven
by the oracle `outcome` (result of the `i`-th delete call).  Arguments after
the list: current call index, `deletedCount`, `failedCount`.  On success the
loop sleeps `DELETE_INTERVAL`; on a 429 error it sleeps
`calculateWaitTime(tweet.created_at)`; on any other error it sleeps
`DELETE_INTERVAL * 2`.  Returns final `deletedCount`, `failedCount` and the
trace. -/
def deleteLoop (env : JsEnv) (outcome : ℕ → DeleteOutcome) :
    List Tweet → ℕ → ℕ → ℕ → ℕ × ℕ × List Event
  | [], _, d, f => (d, f, [])
  | t :: ts, i, d, f =>
    match outcome i with
    | .ok =>
      let rest := deleteLoop env outcome ts (i + 1) (d + 1) f
      (rest.1, rest.2.1, .deleteCall t.id :: .sleep (.fin DELETE_INTERVAL) :: rest.2.2)
    | .err e =>
      let slp : JSNum :=
        if e.code = some 429 then calculateWaitTime env (createdReset t)
        else .fin (DELETE_INTERVAL * 2)
      let rest := deleteLoop env outcome ts (i + 1) d (f + 1)
      (rest.1, rest.2.1, .deleteCall t.id :: .sleep slp :: rest.2.2)

/-- `tweets.slice(1)`: every fetched tweet except the first (newest). -/
def tweetsToDelete (tweets : List Tweet) : List Tweet := tweets.drop 1

/-- The guard and loop of `deleteTweets` after the fetch: with at most one
tweet the function returns before the loop; otherwise the loop runs over
`tweets.slice(1)` starting from zero counters. -/
def deletionPhase (env : JsEnv) (outcome : ℕ → DeleteOutcome)
    (tweets : List Tweet) : ℕ × ℕ × List Event :=
  if tweets.length ≤ 1 then (0, 0, [])
  else deleteLoop env outcome (tweetsToDelete tweets) 0 0 0

/-- `checkApiStatus` of `src/index.ts`: look the user up by username
(oracle `u`, yielding `userResponse.data?.id`), and when `data` is present
fetch a 5-tweet timeline page (oracle `tlc`).  Any thrown error is logged
(`logError`, plus `logRateLimit` when `error.code === 429`) and the function
returns `false`; it never retries.  Returns `(success, trace)`. -/
def checkApiStatus (u : ApiResult (Option String)) (tlc : ApiResult Unit) :
    Bool × List Event :=
  match u with
  | .err e =>
    (false, [.userByUsernameCall, .logError]
      ++ if e.code = some 429 then [.logRateLimit] else [])
  | .ok Option.none => (true, [.userByUsernameCall])
  | .ok (some uid) =>
    match tlc with
    | .ok _ => (true, [.userByUsernameCall, .checkTimelineCall uid])
    | .err e =>
      (false, [.userByUsernameCall, .checkTimelineCall uid, .logError]
        ++ if e.code = some 429 then [.logRateLimit] else [])

/-- `deleteTweets` of `src/index.ts` (the whole run): preflight check, then
fetch (starting with an unpopulated `USER_ID` cache), then the guarded
deletion loop; an error escaping the fetch is caught by the outer
`try`/`catch` and logged.  Returns `Option.none` only if the fetch exhausts
its fuel; otherwise `(deletedCount, failedCount, trace)`. -/
def deleteTweetsRun (env : JsEnv) (u : ApiResult (Option String))
    (tlc : ApiResult Unit) (me : ℕ → ApiResult String)
    (tl : ℕ → ApiResult (List Tweet)) (outcome : ℕ → DeleteOutcome)
    (fuel : ℕ) : Option (ℕ × ℕ × List Event) :=
  let check := checkApiStatus u tlc
  if !check.1 then some (0, 0, check.2)
  else
    match getAllTweetsF env me tl Option.none 0 0 fuel with
    | Option.none => Option.none
    | some (.err _, tr, _, _) => some (0, 0, check.2 ++ tr ++ [.logError])
    | some (.ok tweets, tr, _, _) =>
      let phase := deletionPhase env outcome tweets
      some (phase.1, phase.2.1, check.2 ++ tr ++ phase.2.2)

/-- The delete-call targets of a trace, in order. -/
def deleteCallsOf (tr : List Event) : List String :=
  tr.filterMap fun e =>
    match e with
    | .deleteCall i => some i
    | _ => Option.none

/-! ## Analysis of the deletion loop -/

/-- The sleep performed by the loop body at call index `i` on tweet `t`. -/
def stepSleep (env : JsEnv) (outcome : ℕ → DeleteOutcome) (i : ℕ) (t : Tweet) : JSNum :=
  match outcome i with
  | .ok => .fin DELETE_INTERVAL
  | .err e =>
    if e.code = some 429 then calculateWaitTime env (createdReset t)
    else .fin (DELETE_INTERVAL * 2)

/-- The trace produced by the loop: one delete call and one sleep per tweet. -/
def loopTrace (env : JsEnv) (outcome : ℕ → DeleteOutcome) : List Tweet → ℕ → List Event
  | [], _ => []
  | t :: ts, i =>
    .deleteCall t.id :: .sleep (stepSleep env outcome i t) :: loopTrace env outcome ts (i + 1)

/-- Number of successful delete calls over a candidate segment starting at
call index `i`. -/
def succCount (outcome : ℕ → DeleteOutcome) : List Tweet → ℕ → ℕ
  | [], _ => 0
  | _ :: ts, i => (match outcome i with | .ok => 1 | .err _ => 0) + succCount outcome ts (i + 1)

/-- Number of failed delete calls over a candidate segment starting at call
index `i`. -/
def failCount (outcome : ℕ → DeleteOutcome) : List Tweet → ℕ → ℕ
  | [], _ => 0
  | _ :: ts, i => (match outcome i with | .ok => 0 | .err _ => 1) + failCount outcome ts (i + 1)

lemma deleteLoop_eq (env : JsEnv) (outcome : ℕ → DeleteOutcome) :
    ∀ (ts : List Tweet) (i d f : ℕ),
      deleteLoop env outcome ts i d f
        = (d + succCount outcome ts i, f + failCount outcome ts i,
           loopTrace env outcome ts i) := by
  intro ts
  induction ts with
  | nil => intro i d f; simp [deleteLoop, succCount, failCount, loopTrace]
  | cons t ts ih =>
    intro i d f
    cases h : outcome i with
    | ok =>
      simp only [deleteLoop, h, ih, succCount, failCount, loopTrace, stepSleep,
        Prod.mk.injEq]
      exact ⟨by omega, by omega, trivial⟩
    | err e =>
      simp only [deleteLoop, h, ih, succCount, failCount, loopTrace, stepSleep,
        Prod.mk.injEq]
      exact ⟨by omega, by omega, trivial⟩

lemma succCount_add_failCount (outcome : ℕ → DeleteOutcome) :
    ∀ (ts : List Tweet) (i : ℕ),
      succCount outcome ts i + failCount outcome ts i = ts.length := by
  intro ts
  induction ts with
  | nil => intro i; simp [succCount, failCount]
  | cons t ts ih =>
    intro i
    have := ih (i + 1)
    cases h : outcome i <;> simp [succCount, failCount, h] <;> omega

lemma deleteCallsOf_loopTrace (env : JsEnv) (outcome : ℕ → DeleteOutcome) :
    ∀ (ts : List Tweet) (i : ℕ),
      deleteCallsOf (loopTrace env outcome ts i) = ts.map Tweet.id := by
  intro ts
  induction ts with
  | nil => intro i; simp [loopTrace, deleteCallsOf]
  | cons t ts ih =>
    intro i
    have := ih (i + 1)
    simp only [deleteCallsOf, List.filterMap_cons, loopTrace] at this ⊢
    simp [this]

lemma getElemQ_cons_two (l : List Event) (e1 e2 : Event) (n : ℕ) :
    (e1 :: e2 :: l)[n + 2]? = l[n]? := by
  show (e1 :: e2 :: l)[(n + 1) + 1]? = l[n]?
  rw [List.getElem?_cons_succ, List.getElem?_cons_succ]

lemma loopTrace_getElem (env : JsEnv) (outcome : ℕ → DeleteOutcome) :
    ∀ (ts : List Tweet) (k i : ℕ) (t : Tweet), ts[k]? = some t →
      (loopTrace env outcome ts i)[2 * k]? = some (.deleteCall t.id) ∧
      (loopTrace env outcome ts i)[2 * k + 1]?
        = some (.sleep (stepSleep env outcome (i + k) t)) := by
  intro ts
  induction ts with
  | nil => intro k i t h; simp at h
  | cons a ts ih =>
    intro k i t h
    cases k with
    | zero =>
      rw [List.getElem?_cons_zero] at h
      injection h with h
      subst h
      simp [loopTrace]
    | succ k =>
      rw [List.getElem?_cons_succ] at h
      obtain ⟨ih1, ih2⟩ := ih k (i + 1) t h
      have hidx : i + 1 + k = i + (k + 1) := by omega
      rw [hidx] at ih2
      constructor
      · rw [show 2 * (k + 1) = 2 * k + 2 by ring]
        simpa [loopTrace, getElemQ_cons_two] using ih1
      · rw [show 2 * (k + 1) + 1 = 2 * k + 1 + 2 by ring]
        simpa [loopTrace, getElemQ_cons_two] using ih2

lemma succCount_append (outcome : ℕ → DeleteOutcome) :
    ∀ (l1 l2 : List Tweet) (i : ℕ),
      succCount outcome (l1 ++ l2) i
        = succCount outcome l1 i + succCount outcome l2 (i + l1.length) := by
  intro l1
  induction l1 with
  | nil => intro l2 i; simp [succCount]
  | cons a l1 ih =>
    intro l2 i
    have hidx : i + 1 + l1.length = i + (l1.length + 1) := by omega
    have := ih l2 (i + 1)
    rw [hidx] at this
    cases h : outcome i <;> (simp [succCount, h, this]; try omega)

lemma failCount_append (outcome : ℕ → DeleteOutcome) :
    ∀ (l1 l2 : List Tweet) (i : ℕ),
      failCount outcome (l1 ++ l2) i
        = failCount outcome l1 i + failCount outcome l2 (i + l1.length) := by
  intro l1
  induction l1 with
  | nil => intro l2 i; simp [failCount]
  | cons a l1 ih =>
    intro l2 i
    have hidx : i + 1 + l1.length = i + (l1.length + 1) := by omega
    have := ih l2 (i + 1)
    rw [hidx] at this
    cases h : outcome i <;> (simp [failCount, h, this]; try omega)

lemma deletionPhase_trace (env : JsEnv) (outcome : ℕ → DeleteOutcome)
    (tweets : List Tweet) (hN : 1 < tweets.length) :
    (deletionPhase env outcome tweets).2.2
      = loopTrace env outcome (tweetsToDelete tweets) 0 := by
  have hnle : ¬ tweets.length ≤ 1 := by omega
  simp [deletionPhase, hnle, deleteLoop_eq]

/-! ## Analysis of the identity / fetch retry recursion -/

/-- Expected trace of `getUserId` when the calls starting at index `j` hit
`k` rate-limit errors and then succeed: each round is a `me` call followed by
the computed sleep, then the final successful `me` call. -/
def expectedRetryTrace (w : ℕ → JSNum) : ℕ → ℕ → List Event
  | _, 0 => [.meCall]
  | j, k+1 => .meCall :: .sleep (w j) :: expectedRetryTrace w (j + 1) k

/-- Expected trace of `getAllTweetsAtOnce` when identity resolution always
succeeds and the timeline calls starting at index `j` hit `k` rate-limit
errors and then succeed. -/
def expectedFetchTrace (uid : String) (w : ℕ → JSNum) : ℕ → ℕ → List Event
  | _, 0 => [.meCall, .timelineCall uid]
  | j, k+1 => .meCall :: .timelineCall uid :: .sleep (w j) :: expectedFetchTrace uid w (j + 1) k

lemma getUserIdF_okStep (env : JsEnv) (me : ℕ → ApiResult String) (uid : String)
    (fuel j : ℕ) (hok : me j = .ok uid) :
    getUserIdF env me Option.none j (fuel + 1) = some (.ok uid, [.meCall], j + 1) := by
  simp [getUserIdF, strTruthy, hok]

lemma getUserIdF_rlStep (env : JsEnv) (me : ℕ → ApiResult String) (e : ApiError)
    (fuel j : ℕ) (herr : me j = .err e) (hrl : isRateLimitError e = true) :
    getUserIdF env me Option.none j (fuel + 1)
      = match getUserIdF env me Option.none (j + 1) fuel with
        | some (r, tr, j2) => some (r, .meCall :: .sleep (errWait env e) :: tr, j2)
        | Option.none => Option.none := by
  simp only [getUserIdF]
  simp [strTruthy, herr, hrl]

lemma getUserIdF_retry_aux (env : JsEnv) (me : ℕ → ApiResult String)
    (errAt : ℕ → ApiError) (uid : String) :
    ∀ k j : ℕ,
      (∀ i, i < k → me (j + i) = .err (errAt (j + i))
        ∧ isRateLimitError (errAt (j + i)) = true) →
      me (j + k) = .ok uid →
      getUserIdF env me Option.none j (k + 1)
        = some (.ok uid, expectedRetryTrace (fun n => errWait env (errAt n)) j k,
            j + k + 1) := by
  intro k
  induction k with
  | zero =>
    intro j _ hok
    rw [Nat.add_zero] at hok
    simp [getUserIdF, strTruthy, hok, expectedRetryTrace]
  | succ k ih =>
    intro j herr hok
    have h0 := herr 0 (by omega)
    rw [Nat.add_zero] at h0
    have hrec := ih (j + 1)
      (fun i hi => by
        have := herr (i + 1) (by omega)
        rwa [show j + (i + 1) = j + 1 + i by omega] at this)
      (by rwa [show j + 1 + k = j + (k + 1) by omega])
    rw [show j + (k + 1) + 1 = j + 1 + k + 1 by omega]
    rw [getUserIdF_rlStep env me (errAt j) (k + 1) j h0.1 h0.2, hrec]
    simp [expectedRetryTrace]

lemma getUserIdF_nonRL (env : JsEnv) (me : ℕ → ApiResult String) (e : ApiError)
    (fuel j : ℕ) (herr : me j = .err e) (hnot : isRateLimitError e = false) :
    getUserIdF env me Option.none j (fuel + 1) = some (.err e, [.meCall], j + 1) := by
  simp [getUserIdF, strTruthy, herr, hnot]

lemma getAllTweetsF_tlRLStep (env : JsEnv) (me : ℕ → ApiResult String)
    (tl : ℕ → ApiResult (List Tweet)) (uid : String) (e : ApiError)
    (fuel j iTl : ℕ) (hme : me j = .ok uid) (htl : tl iTl = .err e)
    (hrl : isRateLimitError e = true) :
    getAllTweetsF env me tl Option.none j iTl (fuel + 1)
      = match getAllTweetsF env me tl Option.none (j + 1) (iTl + 1) fuel with
        | some (r, tr2, a, b) =>
          some (r, .meCall :: .timelineCall uid :: .sleep (errWait env e) :: tr2, a, b)
        | Option.none => Option.none := by
  simp only [getAllTweetsF]
  rw [getUserIdF_okStep env me uid fuel j hme]
  simp [htl, hrl]
  cases getAllTweetsF env me tl Option.none (j + 1) (iTl + 1) fuel with
  | none => rfl
  | some x => rfl

lemma getAllTweetsF_retry_aux (env : JsEnv) (me : ℕ → ApiResult String)
    (tl : ℕ → ApiResult (List Tweet)) (tlErr : ℕ → ApiError) (uid : String)
    (ts : List Tweet) (hme : ∀ n, me n = .ok uid) :
    ∀ k j : ℕ,
      (∀ i, i < k → tl (j + i) = .err (tlErr (j + i))
        ∧ isRateLimitError (tlErr (j + i)) = true) →
      tl (j + k) = .ok ts →
      getAllTweetsF env me tl Option.none j j (k + 1)
        = some (.ok ts, expectedFetchTrace uid (fun n => errWait env (tlErr n)) j k,
            j + k + 1, j + k + 1) := by
  intro k
  induction k with
  | zero =>
    intro j _ hok
    rw [Nat.add_zero] at hok
    simp [getAllTweetsF, getUserIdF_okStep env me uid 0 j (hme j), hok,
      expectedFetchTrace]
  | succ k ih =>
    intro j herr hok
    have h0 := herr 0 (by omega)
    rw [Nat.add_zero] at h0
    have hrec := ih (j + 1)
      (fun i hi => by
        have := herr (i + 1) (by omega)
        rwa [show j + (i + 1) = j + 1 + i by omega] at this)
      (by rwa [show j + 1 + k = j + (k + 1) by omega])
    rw [show j + (k + 1) + 1 = j + 1 + k + 1 by omega]
    rw [getAllTweetsF_tlRLStep env me tl uid (tlErr j) (k + 1) j j (hme j) h0.1 h0.2,
      hrec]
    simp [expectedFetchTrace]

lemma getAllTweetsF_nonRL (env : JsEnv) (me : ℕ → ApiResult String)
    (tl : ℕ → ApiResult (List Tweet)) (uid : String) (e : ApiError) (fuel : ℕ)
    (hme : me 0 = .ok uid) (htl : tl 0 = .err e)
    (hnot : isRateLimitError e = false) :
    getAllTweetsF env me tl Option.none 0 0 (fuel + 1)
      = some (.err e, [.meCall, .timelineCall uid], 1, 1) := by
  simp [getAllTweetsF, getUserIdF_okStep env me uid fuel 0 hme, htl, hnot]

/-- Occurrences of an event in a trace. -/
def countEv (ev : Event) : List Event → ℕ
  | [] => 0
  | e :: tr => (if e = ev then 1 else 0) + countEv ev tr

/-! ## Helper fixtures for concrete evaluations -/

/-- A concrete environment: the epoch instant, with no parseable dates. -/
def envW : JsEnv := ⟨0, fun _ => JSNum.nan⟩

/-- A concrete rate-limit error resetting at epoch second 1600. -/
def errRLW : ApiError := ⟨true, true, some 429, some 1600⟩

/-- A concrete non-rate-limit error (HTTP 500). -/
def errPlainW : ApiError := ⟨false, false, some 500, Option.none⟩

/-- A `me` oracle: two rate-limit errors, then the id `"42"`. -/
def meOracleW : ℕ → ApiResult String :=
  fun i => if i < 2 then .err errRLW else .ok "42"

/-- A timeline oracle: two rate-limit errors, then a one-tweet page. -/
def tlOracleW : ℕ → ApiResult (List Tweet) :=
  fun i => if i < 2 then .err errRLW else .ok [⟨"a", Option.none⟩]

/-! ## Claim theorems -/

/-- C1: `calculateWaitTime` returns 900000 ms for an absent reset marker;
otherwise, whenever `waitSeconds = resetTimestampSeconds - currentEpochSeconds`
is a (finite) value `q`, it returns 900000 ms if `q ≤ 0` and
`min(q * 1000 + 60000, 3600000)` ms if `0 < q`.  The ambient clock is
non-negative (epoch times) and the empty string parses to NaN, as in
JavaScript. -/
theorem C1_calculateWaitTime (env : JsEnv) (hnow : 0 ≤ env.nowMs)
    (hempty : env.parseMs "" = JSNum.nan) (rt : ResetTime) :
    (rt = ResetTime.absent → calculateWaitTime env rt = .fin 900000) ∧
    (rt ≠ ResetTime.absent → ∀ q : ℚ, waitSecondsOf env rt = .fin q →
      ((q ≤ 0 → calculateWaitTime env rt = .fin 900000) ∧
       (0 < q → calculateWaitTime env rt = .fin (min (q * 1000 + 60000) 3600000)))) := by
  have hnowSec : (0 : ℚ) ≤ ((nowSec env : ℤ) : ℚ) := by
    have h1 : (0 : ℤ) ≤ nowSec env :=
      Int.floor_nonneg.mpr (div_nonneg hnow (by norm_num))
    exact_mod_cast h1
  cases rt with
  | absent =>
    exact ⟨fun _ => by simp [calculateWaitTime, ResetTime.falsy, MIN_API_LIMIT_WAIT],
      fun h => absurd rfl h⟩
  | num n =>
    refine ⟨fun h => ResetTime.noConfusion h, fun _ q hq => ?_⟩
    have hq1 : n - ((nowSec env : ℤ) : ℚ) = q := by
      have hws : waitSecondsOf env (ResetTime.num n)
          = .fin (n - ((nowSec env : ℤ) : ℚ)) := rfl
      rw [hws] at hq
      injection hq
    by_cases h0 : n = 0
    · subst h0
      have hqle : q ≤ 0 := by linarith
      exact ⟨fun _ => by simp [calculateWaitTime, ResetTime.falsy, MIN_API_LIMIT_WAIT],
        fun hpos => absurd hpos (by linarith)⟩
    · constructor
      · intro hle
        simp [calculateWaitTime, ResetTime.falsy, h0, waitSecondsOf, resetTimestampSec,
          JSNum.sub, JSNum.leb, hq1, hle, MIN_API_LIMIT_WAIT]
      · intro hpos
        simp [calculateWaitTime, ResetTime.falsy, h0, waitSecondsOf, resetTimestampSec,
          JSNum.sub, JSNum.leb, JSNum.mul, JSNum.add, JSNum.minQ, hq1,
          not_le.mpr hpos, MAX_API_LIMIT_WAIT]
  | str s =>
    refine ⟨fun h => ResetTime.noConfusion h, fun _ q hq => ?_⟩
    have hs : s ≠ "" := by
      rintro rfl
      simp [waitSecondsOf, resetTimestampSec, hempty, JSNum.divQ, JSNum.sub] at hq
    have hfin : ∃ m, env.parseMs s = JSNum.fin m := by
      cases hp : env.parseMs s with
      | fin m => exact ⟨m, rfl⟩
      | nan =>
        exfalso
        simp [waitSecondsOf, resetTimestampSec, hp, JSNum.divQ, JSNum.sub] at hq
    obtain ⟨m, hm⟩ := hfin
    have hq1 : m / 1000 - ((nowSec env : ℤ) : ℚ) = q := by
      simpa [waitSecondsOf, resetTimestampSec, hm, JSNum.divQ, JSNum.sub,
        JSNum.fin.injEq] using hq
    constructor
    · intro hle
      simp [calculateWaitTime, ResetTime.falsy, hs, waitSecondsOf, resetTimestampSec, hm,
        JSNum.divQ, JSNum.sub, JSNum.leb, hq1, hle, MIN_API_LIMIT_WAIT]
    · intro hpos
      simp [calculateWaitTime, ResetTime.falsy, hs, waitSecondsOf, resetTimestampSec, hm,
        JSNum.divQ, JSNum.sub, JSNum.leb, JSNum.mul, JSNum.add, JSNum.minQ, hq1,
        not_le.mpr hpos, MAX_API_LIMIT_WAIT]

/-- Witness for C1: at the epoch with a 600-second reset marker the wait is
660000 ms, obtained from `C1_calculateWaitTime`. -/
theorem C1_calculateWaitTime_witness :
    (0 : ℚ) ≤ envW.nowMs ∧ calculateWaitTime envW (ResetTime.num 600) = .fin 660000 := by
  refine ⟨le_refl 0, ?_⟩
  have hws : waitSecondsOf envW (ResetTime.num 600) = JSNum.fin 600 := by
    simp [waitSecondsOf, resetTimestampSec, JSNum.sub, nowSec, envW]
  have h := ((C1_calculateWaitTime envW (le_refl 0) rfl (ResetTime.num 600)).2
    (by simp) 600 hws).2 (by norm_num)
  rw [h]
  norm_num

/-- C2: the deletion loop performs zero delete calls when the fetched list
has length 0 or 1; for length `N > 1` it attempts exactly `N - 1` delete
calls, against `posts[1..N-1]` in the original order, and (when ids are
distinct, as the data model assumes) never against `posts[0]`. -/
theorem C2_deletion_targets (env : JsEnv) (outcome : ℕ → DeleteOutcome)
    (tweets : List Tweet) :
    (tweets.length ≤ 1 →
      deleteCallsOf (deletionPhase env outcome tweets).2.2 = []) ∧
    (1 < tweets.length →
      deleteCallsOf (deletionPhase env outcome tweets).2.2
          = (tweets.drop 1).map Tweet.id ∧
      (deleteCallsOf (deletionPhase env outcome tweets).2.2).length
          = tweets.length - 1 ∧
      (∀ t0, tweets.head? = some t0 → (tweets.map Tweet.id).Nodup →
        t0.id ∉ deleteCallsOf (deletionPhase env outcome tweets).2.2)) := by
  constructor
  · intro hle
    simp [deletionPhase, hle, deleteCallsOf]
  · intro hgt
    rw [deletionPhase_trace env outcome tweets hgt,
      deleteCallsOf_loopTrace env outcome (tweetsToDelete tweets) 0]
    refine ⟨rfl, ?_, ?_⟩
    · simp [tweetsToDelete]
    · intro t0 hh hnd
      cases tweets with
      | nil => simp at hh
      | cons a rest =>
        rw [List.head?_cons] at hh
        injection hh with hh
        subst hh
        simp only [List.map_cons, List.nodup_cons] at hnd
        simpa [tweetsToDelete] using hnd.1

/-- Witness for C2: on the list `[3, 2, 1]` the loop deletes exactly
`["2", "1"]` in order and never the head id `"3"`. -/
theorem C2_deletion_targets_witness :
    deleteCallsOf (deletionPhase envW (fun _ => DeleteOutcome.ok)
        [⟨"3", Option.none⟩, ⟨"2", Option.none⟩, ⟨"1", Option.none⟩]).2.2
      = ["2", "1"] ∧
    "3" ∉ deleteCallsOf (deletionPhase envW (fun _ => DeleteOutcome.ok)
        [⟨"3", Option.none⟩, ⟨"2", Option.none⟩, ⟨"1", Option.none⟩]).2.2 := by
  have h := (C2_deletion_targets envW (fun _ => DeleteOutcome.ok)
    [⟨"3", Option.none⟩, ⟨"2", Option.none⟩, ⟨"1", Option.none⟩]).2 (by decide)
  refine ⟨h.1.trans (by decide), ?_⟩
  have h3 := h.2.2 ⟨"3", Option.none⟩ (by decide) (by decide)
  exact h3

/-- C9: invariant of the deletion loop — every iteration increments exactly
one of the two counters, so from any loop state `(d, f)` the final counters
satisfy `d' + f' = d + f + (number of remaining candidates)`; processing the
first `k` candidates from zero counters gives `d + f = min k (N - 1)`; and at
the final summary `deletedCount + failedCount = N - 1` for a fetched list of
length `N > 1`. -/
theorem C9_counters_invariant (env : JsEnv) (outcome : ℕ → DeleteOutcome)
    (tweets : List Tweet) :
    (∀ (ts : List Tweet) (i d f : ℕ),
      (deleteLoop env outcome ts i d f).1 + (deleteLoop env outcome ts i d f).2.1
        = d + f + ts.length) ∧
    (∀ k : ℕ,
      (deleteLoop env outcome ((tweetsToDelete tweets).take k) 0 0 0).1
        + (deleteLoop env outcome ((tweetsToDelete tweets).take k) 0 0 0).2.1
        = min k (tweetsToDelete tweets).length) ∧
    (1 < tweets.length →
      (deletionPhase env outcome tweets).1 + (deletionPhase env outcome tweets).2.1
        = tweets.length - 1) := by
  have hgen : ∀ (ts : List Tweet) (i d f : ℕ),
      (deleteLoop env outcome ts i d f).1 + (deleteLoop env outcome ts i d f).2.1
        = d + f + ts.length := by
    intro ts i d f
    rw [deleteLoop_eq]
    have := succCount_add_failCount outcome ts i
    simp only
    omega
  refine ⟨hgen, fun k => ?_, fun hgt => ?_⟩
  · have := hgen ((tweetsToDelete tweets).take k) 0 0 0
    simpa using this
  · have hnle : ¬ tweets.length ≤ 1 := by omega
    have := hgen (tweetsToDelete tweets) 0 0 0
    simp only [deletionPhase, hnle, if_false]
    simp only [tweetsToDelete, List.length_drop] at this ⊢
    omega

/-- Witness for C9: a run over 3 fetched tweets with one failure ends with
`deletedCount + failedCount = 2`. -/
theorem C9_counters_invariant_witness :
    (deletionPhase envW
        (fun i => if i = 0 then DeleteOutcome.err ⟨false, false, some 500, Option.none⟩
          else DeleteOutcome.ok)
        [⟨"3", Option.none⟩, ⟨"2", Option.none⟩, ⟨"1", Option.none⟩]).1
      + (deletionPhase envW
        (fun i => if i = 0 then DeleteOutcome.err ⟨false, false, some 500, Option.none⟩
          else DeleteOutcome.ok)
        [⟨"3", Option.none⟩, ⟨"2", Option.none⟩, ⟨"1", Option.none⟩]).2.1 = 2 := by
  have h := (C9_counters_invariant envW
    (fun i => if i = 0 then DeleteOutcome.err ⟨false, false, some 500, Option.none⟩
      else DeleteOutcome.ok)
    [⟨"3", Option.none⟩, ⟨"2", Option.none⟩, ⟨"1", Option.none⟩]).2.2 (by decide)
  simpa using h

/-- C8: after every successful deletion the loop records the delete call and
then unconditionally sleeps exactly `DELETE_INTERVAL = 5000` ms before the
next candidate. -/
theorem C8_sleep_after_success (env : JsEnv) (outcome : ℕ → DeleteOutcome)
    (tweets : List Tweet) (k : ℕ) (t : Tweet) (hN : 1 < tweets.length)
    (ht : (tweetsToDelete tweets)[k]? = some t) (hok : outcome k = .ok) :
    ((deletionPhase env outcome tweets).2.2)[2 * k]? = some (.deleteCall t.id) ∧
    ((deletionPhase env outcome tweets).2.2)[2 * k + 1]?
      = some (.sleep (.fin 5000)) := by
  rw [deletionPhase_trace env outcome tweets hN]
  obtain ⟨h1, h2⟩ := loopTrace_getElem env outcome (tweetsToDelete tweets) k 0 t ht
  rw [Nat.zero_add] at h2
  refine ⟨h1, ?_⟩
  rw [h2]
  simp [stepSleep, hok, DELETE_INTERVAL]

/-- Witness for C8: in a concrete 3-tweet run the first candidate's
successful delete call is followed by a 5000 ms sleep. -/
theorem C8_sleep_after_success_witness :
    ((deletionPhase envW (fun _ => DeleteOutcome.ok)
        [⟨"3", Option.none⟩, ⟨"2", Option.none⟩, ⟨"1", Option.none⟩]).2.2)[1]?
      = some (.sleep (.fin 5000)) := by
  have h := (C8_sleep_after_success envW (fun _ => DeleteOutcome.ok)
    [⟨"3", Option.none⟩, ⟨"2", Option.none⟩, ⟨"1", Option.none⟩] 0 ⟨"2", Option.none⟩
    (by decide) (by decide) rfl).2
  simpa using h

/-- C5: when a delete call fails with HTTP 429, the loop sleeps
`calculateWaitTime` applied to the candidate tweet's own `created_at`
field; the error's own rate-limit reset metadata (`e.rateLimitReset`,
universally quantified here) does not enter the computed wait. -/
theorem C5_429_wait_uses_created_at (env : JsEnv) (outcome : ℕ → DeleteOutcome)
    (tweets : List Tweet) (k : ℕ) (t : Tweet) (e : ApiError)
    (hN : 1 < tweets.length) (ht : (tweetsToDelete tweets)[k]? = some t)
    (herr : outcome k = .err e) (h429 : e.code = some 429) :
    ((deletionPhase env outcome tweets).2.2)[2 * k + 1]?
      = some (.sleep (calculateWaitTime env (createdReset t))) := by
  rw [deletionPhase_trace env outcome tweets hN]
  have h2 := (loopTrace_getElem env outcome (tweetsToDelete tweets) k 0 t ht).2
  rw [Nat.zero_add] at h2
  rw [h2]
  simp [stepSleep, herr, h429]

/-- Witness for C5: a 429 failure on a tweet with an unparseable
`created_at` sleeps `calculateWaitTime` of that string — not a wait derived
from the error's reset metadata (here 7200 s in the future). -/
theorem C5_429_wait_uses_created_at_witness :
    ((deletionPhase envW
        (fun _ => DeleteOutcome.err ⟨true, true, some 429, some 7200⟩)
        [⟨"3", Option.none⟩, ⟨"2", some "x"⟩, ⟨"1", Option.none⟩]).2.2)[1]?
      = some (.sleep (calculateWaitTime envW (ResetTime.str "x"))) := by
  have h := C5_429_wait_uses_created_at envW
    (fun _ => DeleteOutcome.err ⟨true, true, some 429, some 7200⟩)
    [⟨"3", Option.none⟩, ⟨"2", some "x"⟩, ⟨"1", Option.none⟩] 0 ⟨"2", some "x"⟩
    ⟨true, true, some 429, some 7200⟩ (by decide) (by decide) rfl rfl
  simpa [createdReset] using h

/-- C6: a delete failure that is not HTTP 429 increments `failedCount` and
leaves `deletedCount` unchanged, sleeps exactly `2 * DELETE_INTERVAL =
10000` ms, and the loop advances: the next candidate still receives its
delete call, and every candidate receives exactly one delete call (the
failed tweet is not retried and the loop never aborts). -/
theorem C6_non429_failure (env : JsEnv) (outcome : ℕ → DeleteOutcome)
    (tweets : List Tweet) (k : ℕ) (t : Tweet) (e : ApiError)
    (hN : 1 < tweets.length) (ht : (tweetsToDelete tweets)[k]? = some t)
    (herr : outcome k = .err e) (hne : e.code ≠ some 429) :
    ((deletionPhase env outcome tweets).2.2)[2 * k + 1]?
      = some (.sleep (.fin 10000)) ∧
    (deleteLoop env outcome ((tweetsToDelete tweets).take (k + 1)) 0 0 0).2.1
      = (deleteLoop env outcome ((tweetsToDelete tweets).take k) 0 0 0).2.1 + 1 ∧
    (deleteLoop env outcome ((tweetsToDelete tweets).take (k + 1)) 0 0 0).1
      = (deleteLoop env outcome ((tweetsToDelete tweets).take k) 0 0 0).1 ∧
    (∀ t2, (tweetsToDelete tweets)[k + 1]? = some t2 →
      ((deletionPhase env outcome tweets).2.2)[2 * (k + 1)]?
        = some (.deleteCall t2.id)) ∧
    deleteCallsOf (deletionPhase env outcome tweets).2.2
      = (tweetsToDelete tweets).map Tweet.id := by
  have hk : k < (tweetsToDelete tweets).length := by
    by_contra hcon
    rw [List.getElem?_eq_none (by omega)] at ht
    exact Option.noConfusion ht
  have htake : (tweetsToDelete tweets).take (k + 1)
      = (tweetsToDelete tweets).take k ++ [t] := by
    rw [List.take_succ, ht]
    rfl
  have hlen : ((tweetsToDelete tweets).take k).length = k :=
    (List.length_take k _).trans (min_eq_left (le_of_lt hk))
  refine ⟨?_, ?_, ?_, ?_, ?_⟩
  · rw [deletionPhase_trace env outcome tweets hN]
    have h2 := (loopTrace_getElem env outcome (tweetsToDelete tweets) k 0 t ht).2
    rw [Nat.zero_add] at h2
    rw [h2]
    have : stepSleep env outcome k t = .fin 10000 := by
      simp only [stepSleep, herr, if_neg hne]
      norm_num [DELETE_INTERVAL]
    rw [this]
  · rw [deleteLoop_eq, deleteLoop_eq]
    simp only [htake, failCount_append, Nat.zero_add, hlen]
    simp [failCount, herr]
  · rw [deleteLoop_eq, deleteLoop_eq]
    simp only [htake, succCount_append, Nat.zero_add, hlen]
    simp [succCount, herr]
  · intro t2 ht2
    rw [deletionPhase_trace env outcome tweets hN]
    exact (loopTrace_getElem env outcome (tweetsToDelete tweets) (k + 1) 0 t2 ht2).1
  · rw [deletionPhase_trace env outcome tweets hN]
    exact deleteCallsOf_loopTrace env outcome (tweetsToDelete tweets) 0

/-- Witness for C6: a 500-error on the first candidate sleeps 10000 ms, makes
`(deletedCount, failedCount) = (0, 1)` over the first candidate, and the
second candidate still receives its delete call. -/
theorem C6_non429_failure_witness :
    ((deletionPhase envW
        (fun i => if i = 0 then DeleteOutcome.err ⟨false, false, some 500, Option.none⟩
          else DeleteOutcome.ok)
        [⟨"3", Option.none⟩, ⟨"2", Option.none⟩, ⟨"1", Option.none⟩]).2.2)[1]?
      = some (.sleep (.fin 10000)) ∧
    ((deletionPhase envW
        (fun i => if i = 0 then DeleteOutcome.err ⟨false, false, some 500, Option.none⟩
          else DeleteOutcome.ok)
        [⟨"3", Option.none⟩, ⟨"2", Option.none⟩, ⟨"1", Option.none⟩]).2.2)[2]?
      = some (.deleteCall "1") := by
  have h := C6_non429_failure envW
    (fun i => if i = 0 then DeleteOutcome.err ⟨false, false, some 500, Option.none⟩
      else DeleteOutcome.ok)
    [⟨"3", Option.none⟩, ⟨"2", Option.none⟩, ⟨"1", Option.none⟩] 0 ⟨"2", Option.none⟩
    ⟨false, false, some 500, Option.none⟩ (by decide) (by decide) rfl (by decide)
  refine ⟨by simpa using h.1, ?_⟩
  have h4 := h.2.2.2.1 ⟨"1", Option.none⟩ (by decide)
  simpa using h4

/-- C3: the spec claims that after the first successful `getUserId` call the
resolved id is cached in `USER_ID` so later calls skip the `me()` API call.
The source declares `USER_ID` and checks it (`if (USER_ID) return USER_ID`)
but never assigns it, so the cache stays `null`: here two consecutive
successful calls (the second starting exactly from the state the first left
behind) each issue a `me` API call. -/
theorem C3_cache_never_populated :
    getUserIdF envW (fun _ => ApiResult.ok "42") Option.none 0 1
      = some (.ok "42", [Event.meCall], 1) ∧
    getUserIdF envW (fun _ => ApiResult.ok "42") Option.none 1 1
      = some (.ok "42", [Event.meCall], 2) := by
  constructor <;> rfl

/-- C4: retry policy of `getUserId` and `getAllTweetsAtOnce`.  For every
number `k` of consecutive rate-limit errors, the operation retries itself
after sleeping the computed wait each round and succeeds on the `(k+1)`-th
call — there is no retry ceiling; a non-rate-limit error is propagated after
a single call, with no sleep and no retry. -/
theorem C4_retry_policy (env : JsEnv) :
    (∀ (k : ℕ) (me : ℕ → ApiResult String) (errAt : ℕ → ApiError) (uid : String),
      (∀ i, i < k → me i = .err (errAt i) ∧ isRateLimitError (errAt i) = true) →
      me k = .ok uid →
      getUserIdF env me Option.none 0 (k + 1)
        = some (.ok uid, expectedRetryTrace (fun n => errWait env (errAt n)) 0 k,
            k + 1)) ∧
    (∀ (fuel : ℕ) (me : ℕ → ApiResult String) (e : ApiError),
      me 0 = .err e → isRateLimitError e = false →
      getUserIdF env me Option.none 0 (fuel + 1) = some (.err e, [.meCall], 1)) ∧
    (∀ (k : ℕ) (me : ℕ → ApiResult String) (tl : ℕ → ApiResult (List Tweet))
        (tlErr : ℕ → ApiError) (uid : String) (ts : List Tweet),
      (∀ n, me n = .ok uid) →
      (∀ i, i < k → tl i = .err (tlErr i) ∧ isRateLimitError (tlErr i) = true) →
      tl k = .ok ts →
      getAllTweetsF env me tl Option.none 0 0 (k + 1)
        = some (.ok ts, expectedFetchTrace uid (fun n => errWait env (tlErr n)) 0 k,
            k + 1, k + 1)) ∧
    (∀ (fuel : ℕ) (me : ℕ → ApiResult String) (tl : ℕ → ApiResult (List Tweet))
        (uid : String) (e : ApiError),
      me 0 = .ok uid → tl 0 = .err e → isRateLimitError e = false →
      getAllTweetsF env me tl Option.none 0 0 (fuel + 1)
        = some (.err e, [.meCall, .timelineCall uid], 1, 1)) := by
  refine ⟨?_, ?_, ?_, ?_⟩
  · intro k me errAt uid herr hok
    have h := getUserIdF_retry_aux env me errAt uid k 0
      (fun i hi => by simpa using herr i hi) (by simpa using hok)
    simpa using h
  · intro fuel me e herr hnot
    exact getUserIdF_nonRL env me e fuel 0 herr hnot
  · intro k me tl tlErr uid ts hme herr hok
    have h := getAllTweetsF_retry_aux env me tl tlErr uid ts hme k 0
      (fun i hi => by simpa using herr i hi) (by simpa using hok)
    simpa using h
  · intro fuel me tl uid e hme htl hnot
    exact getAllTweetsF_nonRL env me tl uid e fuel hme htl hnot

/-- Witness for C4: two consecutive rate-limit errors are survived by both
operations (retrying with the computed sleeps) and a plain HTTP 500 is
propagated immediately. -/
theorem C4_retry_policy_witness :
    getUserIdF envW meOracleW Option.none 0 3
      = some (.ok "42", expectedRetryTrace (fun _ => errWait envW errRLW) 0 2, 3) ∧
    getUserIdF envW (fun _ => .err errPlainW) Option.none 0 5
      = some (.err errPlainW, [.meCall], 1) ∧
    getAllTweetsF envW (fun _ => .ok "42") tlOracleW Option.none 0 0 3
      = some (.ok [⟨"a", Option.none⟩],
          expectedFetchTrace "42" (fun _ => errWait envW errRLW) 0 2, 3, 3) ∧
    getAllTweetsF envW (fun _ => .ok "42") (fun _ => .err errPlainW)
        Option.none 0 0 5
      = some (.err errPlainW, [.meCall, .timelineCall "42"], 1, 1) := by
  obtain ⟨h1, h2, h3, h4⟩ := C4_retry_policy envW
  refine ⟨?_, ?_, ?_, ?_⟩
  · exact h1 2 meOracleW (fun _ => errRLW) "42"
      (fun i hi => ⟨by simp [meOracleW, hi], rfl⟩) (by simp [meOracleW])
  · exact h2 4 (fun _ => .err errPlainW) errPlainW rfl rfl
  · exact h3 2 (fun _ => .ok "42") tlOracleW (fun _ => errRLW) "42"
      [⟨"a", Option.none⟩] (fun _ => rfl)
      (fun i hi => ⟨by simp [tlOracleW, hi], rfl⟩) (by simp [tlOracleW])
  · exact h4 4 (fun _ => .ok "42") (fun _ => .err errPlainW) "42" errPlainW
      rfl rfl rfl

/-- C7: if the preflight check throws (either the user lookup, or the
timeline probe after a user with data was found), the run returns right after
the check: the result is `(0, 0)` with the preflight trace only — no delete
call, no `me` call; the error is logged, each preflight call happens at most
once (no retry), and a 429 during preflight additionally logs the rate-limit
information. -/
theorem C7_preflight_aborts (env : JsEnv) (u : ApiResult (Option String))
    (tlc : ApiResult Unit) (me : ℕ → ApiResult String)
    (tl : ℕ → ApiResult (List Tweet)) (outcome : ℕ → DeleteOutcome) (fuel : ℕ)
    (hfail : (∃ e, u = .err e) ∨ ∃ uid e, u = .ok (some uid) ∧ tlc = .err e) :
    deleteTweetsRun env u tlc me tl outcome fuel
      = some (0, 0, (checkApiStatus u tlc).2) ∧
    deleteCallsOf (checkApiStatus u tlc).2 = [] ∧
    Event.meCall ∉ (checkApiStatus u tlc).2 ∧
    Event.logError ∈ (checkApiStatus u tlc).2 ∧
    countEv Event.userByUsernameCall (checkApiStatus u tlc).2 ≤ 1 ∧
    (∀ uid, countEv (Event.checkTimelineCall uid) (checkApiStatus u tlc).2 ≤ 1) ∧
    (∀ e, u = .err e → e.code = some 429 →
      Event.logRateLimit ∈ (checkApiStatus u tlc).2) ∧
    (∀ uid e, u = .ok (some uid) → tlc = .err e → e.code = some 429 →
      Event.logRateLimit ∈ (checkApiStatus u tlc).2) := by
  rcases hfail with ⟨e, rfl⟩ | ⟨uid0, e, rfl, rfl⟩
  · refine ⟨by simp [deleteTweetsRun, checkApiStatus], ?_, ?_, ?_, ?_, ?_, ?_, ?_⟩
    · by_cases hc : e.code = some 429 <;> simp [checkApiStatus, hc, deleteCallsOf]
    · by_cases hc : e.code = some 429 <;> simp [checkApiStatus, hc]
    · by_cases hc : e.code = some 429 <;> simp [checkApiStatus, hc]
    · by_cases hc : e.code = some 429 <;> simp [checkApiStatus, hc, countEv]
    · intro uid
      by_cases hc : e.code = some 429 <;> simp [checkApiStatus, hc, countEv]
    · intro e2 he2 hc
      injection he2 with he2
      subst he2
      simp [checkApiStatus, hc]
    · intro uid e2 h
      exact absurd h (by simp)
  · refine ⟨by simp [deleteTweetsRun, checkApiStatus], ?_, ?_, ?_, ?_, ?_, ?_, ?_⟩
    · by_cases hc : e.code = some 429 <;> simp [checkApiStatus, hc, deleteCallsOf]
    · by_cases hc : e.code = some 429 <;> simp [checkApiStatus, hc]
    · by_cases hc : e.code = some 429 <;> simp [checkApiStatus, hc]
    · by_cases hc : e.code = some 429 <;> simp [checkApiStatus, hc, countEv]
    · intro uid
      by_cases hc : e.code = some 429 <;>
        by_cases hu : uid0 = uid <;> simp [checkApiStatus, hc, hu, countEv]
    · intro e2 h
      exact absurd h (by simp)
    · intro uid e2 hu he2 hc
      injection hu with hu
      injection hu with hu
      injection he2 with he2
      subst hu
      subst he2
      simp [checkApiStatus, hc]

/-- Witness for C7: a 429 error on the preflight user lookup ends the run
with zero deletions, logging the error and the rate-limit information. -/
theorem C7_preflight_aborts_witness :
    deleteTweetsRun envW (ApiResult.err errRLW) (.ok ()) (fun _ => .ok "42")
        (fun _ => .ok []) (fun _ => .ok) 0
      = some (0, 0, [Event.userByUsernameCall, Event.logError,
          Event.logRateLimit]) := by
  have h := (C7_preflight_aborts envW (ApiResult.err errRLW) (.ok ())
    (fun _ => .ok "42") (fun _ => .ok []) (fun _ => .ok) 0
    (Or.inl ⟨errRLW, rfl⟩)).1
  rw [h]
  rfl

/-- C10: `calculateWaitTime` treats every falsy reset marker as absent: both
the number 0 and the empty string yield the 15-minute floor of 900000 ms, in
every environment. -/
theorem C10_falsy_reset_floor :
    ∀ env : JsEnv, calculateWaitTime env (ResetTime.num 0) = .fin 900000 ∧
      calculateWaitTime env (ResetTime.str "") = .fin 900000 := by
  intro env
  constructor <;> simp [calculateWaitTime, ResetTime.falsy, MIN_API_LIMIT_WAIT]

end XDeleter
